import Mathlib

/-!
Verification development for `pdf_to_word_with_toc.py`.

The program is a linear pipeline: check that a PDF path exists, rasterize the
PDF into page images (`pdf2image.convert_from_path`), run OCR on each page
(`pytesseract.image_to_string`), assemble a Word document (`python-docx`) with
a table-of-contents field followed by one heading-plus-paragraph section per
page, and save it.

Shallow embedding choices:
* The three external capabilities (path existence, rasterization, OCR) and the
  save operation are fields of an `Env` record, modelled as pure functions;
  fallible ones return `Except String`.
* The assembled docx document is a `Doc`: core properties (title, author) plus
  an ordered list of `DocElem` body elements.  `doc.add_heading`,
  `doc.add_paragraph`, `doc.add_page_break` and `add_table_of_contents` append
  the corresponding element.  `hdr.alignment = 1` on the paragraph returned by
  `add_heading` is modelled by the heading element carrying
  `alignment = some 1`.
* Python logging is modelled as a list of `(level, message)` entries; a
  message is emitted when its level passes the configured threshold
  (`logging.DEBUG` when `verbose`, else `logging.INFO`).  `logging.basicConfig`
  sets the root-logger threshold process-wide; since only this function logs,
  it is modelled per call.
* An uncaught Python exception is `Except.error`; a normal return (the Python
  function always returns `None`) is `Except.ok` of a `RunResult` recording
  the observable outcome: emitted logs, the assembled document (if assembly
  was reached) and whether the save succeeded (i.e. whether an output file
  was produced).
* Python f-strings are modelled with explicit string concatenation.
-/

namespace Transcript

/-- Logging levels, mirroring the numeric levels of the Python `logging` module. -/
inductive LogLevel where
  | debug
  | info
  | warning
  | error
  deriving DecidableEq, Repr

/-- Numeric value of a level, as in the Python `logging` module. -/
def LogLevel.toNat : LogLevel → Nat
  | .debug => 10
  | .info => 20
  | .warning => 30
  | .error => 40

/-- One emitted log line: its level and its message. -/
structure LogMsg where
  level : LogLevel
  msg : String
  deriving DecidableEq, Repr

/-- A logging call: the record is emitted iff its level passes the configured
threshold (Python `logging` semantics). -/
def emit (threshold : LogLevel) (lvl : LogLevel) (m : String) : List LogMsg :=
  if threshold.toNat ≤ lvl.toNat then [⟨lvl, m⟩] else []

/-- `level = logging.DEBUG if verbose else logging.INFO` (line 35 of the
source). -/
def configuredLevel (verbose : Bool) : LogLevel :=
  if verbose then LogLevel.debug else LogLevel.info

/-- One body element of the assembled docx document. -/
inductive DocElem where
  /-- `doc.add_heading(text, level)`; `alignment` is `some 1` when the code
  sets `hdr.alignment = 1` (centered) on the returned paragraph. -/
  | heading (text : String) (level : Nat) (alignment : Option Nat)
  /-- `doc.add_paragraph(text)`. -/
  | paragraph (text : String)
  /-- The paragraph built by `add_table_of_contents`: an empty paragraph with
  a `w:fldSimple` child whose `w:instr` attribute is `instr`.  The element
  carries nothing but the field instruction — no TOC entries are computed. -/
  | tocField (instr : String)
  /-- `doc.add_page_break()`. -/
  | pageBreak
  deriving DecidableEq, Repr

/-- The assembled document: `core_properties.title`, `core_properties.author`
and the ordered body elements. -/
structure Doc where
  title : String
  author : String
  body : List DocElem
  deriving DecidableEq, Repr

/-- `Document()`: fresh document, empty core properties, empty body. -/
def Doc.empty : Doc := ⟨"", "", []⟩

/-- `doc.add_heading(text, level=l)` (alignment not set). -/
def Doc.add_heading (d : Doc) (text : String) (level : Nat) : Doc :=
  { d with body := d.body ++ [DocElem.heading text level none] }

/-- `doc.add_paragraph(text)`. -/
def Doc.add_paragraph (d : Doc) (text : String) : Doc :=
  { d with body := d.body ++ [DocElem.paragraph text] }

/-- `doc.add_page_break()`. -/
def Doc.add_page_break (d : Doc) : Doc :=
  { d with body := d.body ++ [DocElem.pageBreak] }

/-- Lines 11-18 of the source: `add_table_of_contents` appends a paragraph and
attaches a `w:fldSimple` element with instruction `TOC \h \z \u` to it. -/
def add_table_of_contents (d : Doc) : Doc :=
  { d with body := d.body ++ [DocElem.tocField "TOC \\h \\z \\u"] }

/-- `Path(p).name` for POSIX-style paths: the final path component (trailing
slashes dropped, as `pathlib` normalises them away).  Implemented over the
reversed character list: drop trailing slashes, then take up to the next
slash. -/
def pathNameRevAux : List Char → List Char
  | [] => []
  | c :: rest => if c = '/' then [] else c :: pathNameRevAux rest

/-- `Path(p).name`. -/
def pathName (p : String) : String :=
  String.mk (pathNameRevAux (p.toList.reverse.dropWhile (fun c => c = '/'))).reverse

/-- Index of the last dot in a character list, if any (Python `rfind` with a
dot argument). -/
def lastDotIdx : List Char → Option Nat
  | [] => none
  | c :: rest =>
    match lastDotIdx rest with
    | some i => some (i + 1)
    | none => if c = '.' then some 0 else none

/-- `Path(p).stem`, following `pathlib`: with `i` the index of the last dot
in the name, the stem
is `name[:i]` when `0 < i < len(name) - 1`, else the whole name. -/
def pathStem (p : String) : String :=
  let nmChars := (pathName p).toList
  match lastDotIdx nmChars with
  | none => String.mk nmChars
  | some i =>
    if 0 < i ∧ i < nmChars.length - 1 then String.mk (nmChars.take i)
    else String.mk nmChars

/-- The external capabilities consumed by the pipeline, modelled as pure
functions; `Img` is the opaque type of rasterized page images. -/
structure Env (Img : Type) where
  /-- `Path(pdf_path).exists()`. -/
  pathExists : String → Bool
  /-- `pdf2image.convert_from_path(path, dpi=dpi)`: the ordered list of page
  images, or a raised exception. -/
  convert_from_path : String → Nat → Except String (List Img)
  /-- `pytesseract.image_to_string(page, lang=lang)`: recognized text, or a
  raised exception. -/
  image_to_string : Img → String → Except String String
  /-- `doc.save(output_path)`: unit on success, or a raised exception. -/
  save : Doc → String → Except String Unit

/-- Observable outcome of a normal (non-raising) return of
`pdf_to_word_with_toc` (whose Python return value is always `None`). -/
structure RunResult where
  /-- Log lines emitted, in order. -/
  logs : List LogMsg
  /-- The assembled document, when assembly was reached. -/
  doc : Option Doc
  /-- Whether `doc.save` succeeded, i.e. whether an output file was written. -/
  saved : Bool
  deriving DecidableEq, Repr

/-- Lines 54-63 of the source: the `for i, page in enumerate(pages, start=1)`
loop.  For each page: log a progress line, OCR the page (a raised exception
propagates), then append — a page break when `i > 1`, the centered level-1
heading `Página i`, and a paragraph with the recognized text.  Returns the
emitted logs and the appended body elements. -/
def processPages {Img : Type} (env : Env Img) (lang : String) (threshold : LogLevel)
    (total : Nat) : List Img → Nat → Except String (List LogMsg × List DocElem)
  | [], _ => Except.ok ([], [])
  | page :: rest, i =>
    let lg := emit threshold LogLevel.info
      ("🔍 Procesando página " ++ toString i ++ "/" ++ toString total ++ "...")
    match env.image_to_string page lang with
    | Except.error e => Except.error e
    | Except.ok text =>
      let sec :=
        (if i > 1 then [DocElem.pageBreak] else []) ++
        [DocElem.heading ("Página " ++ toString i) 1 (some 1),
         DocElem.paragraph text]
      match processPages env lang threshold total rest (i + 1) with
      | Except.error e => Except.error e
      | Except.ok pr => Except.ok (lg ++ pr.1, sec ++ pr.2)

/-- Lines 21-69 of the source: `pdf_to_word_with_toc(pdf_path, output_path,
dpi=300, lang=spa, verbose=True)`.  Checks existence (logging an error and
returning when the PDF is missing), rasterizes (uncaught on failure), builds
the document — title `Conversión de <name>`, author `pdf_to_word_with_toc`,
heading `Tabla de Contenidos`, the TOC field, then the per-page sections —
and saves, catching any save exception and logging it. -/
def pdf_to_word_with_toc {Img : Type} (env : Env Img)
    (pdf_path : String) (output_path : String) (dpi : Nat) (lang : String)
    (verbose : Bool) : Except String RunResult :=
  let level := configuredLevel verbose
  if env.pathExists pdf_path = false then
    Except.ok ⟨emit level LogLevel.error ("El PDF no existe: " ++ pdf_path), none, false⟩
  else
    let nm := pathName pdf_path
    let lg1 := emit level LogLevel.info
      ("📄 Convirtiendo " ++ nm ++ " a imágenes (DPI=" ++ toString dpi ++ ")...")
    match env.convert_from_path pdf_path dpi with
    | Except.error e => Except.error e
    | Except.ok pages =>
      let doc0 := { Doc.empty with
                    title := "Conversión de " ++ nm
                    author := "pdf_to_word_with_toc" }
      let doc1 := add_table_of_contents (doc0.add_heading "Tabla de Contenidos" 1)
      match processPages env lang level pages.length pages 1 with
      | Except.error e => Except.error e
      | Except.ok pr =>
        let doc2 := { doc1 with body := doc1.body ++ pr.2 }
        match env.save doc2 output_path with
        | Except.ok _ =>
          Except.ok ⟨lg1 ++ pr.1 ++ emit level LogLevel.info ("✅ Guardado: " ++ output_path),
            some doc2, true⟩
        | Except.error e =>
          Except.ok ⟨lg1 ++ pr.1 ++
              emit level LogLevel.error ("❌ Error al guardar " ++ output_path ++ ": " ++ e),
            some doc2, false⟩

/-- The parsed CLI arguments of the `__main__` block (defaults: output
directory `"."`, dpi `300`, lang `"spa"`, quiet `false`). -/
structure Args where
  pdfs : List String
  output_dir : String
  dpi : Nat
  lang : String
  quiet : Bool
  deriving DecidableEq, Repr

/-- Line 87 of the source: `output_path = out_dir / f"{stem}.docx"`. -/
def outPathFor (outDir : String) (pdf : String) : String :=
  outDir ++ "/" ++ (pathStem pdf ++ ".docx")

/-- Filesystem-effecting steps taken by the `__main__` block, as a trace. -/
inductive BatchEvent where
  /-- `out_dir.mkdir(parents=True, exist_ok=True)`: create the directory and
  its missing parents; do nothing if it already exists. -/
  | mkdirParentsExistOk (dir : String)
  /-- One invocation of the full conversion pipeline
  `pdf_to_word_with_toc(pdf_path=…, output_path=…, dpi=…, lang=…, verbose=…)`. -/
  | convert (pdf_path : String) (output_path : String) (dpi : Nat) (lang : String)
      (verbose : Bool)
  deriving DecidableEq, Repr

/-- Lines 85-94 of the source: the `for pdf_path in args.pdfs` loop, as the
trace of pipeline invocations it performs. -/
def batchLoop (outDir : String) (dpi : Nat) (lang : String) (quiet : Bool) :
    List String → List BatchEvent
  | [] => []
  | p :: rest =>
    BatchEvent.convert p (outPathFor outDir p) dpi lang (!quiet)
      :: batchLoop outDir dpi lang quiet rest

/-- Lines 82-94 of the source: `__main__` first runs
`out_dir.mkdir(parents=True, exist_ok=True)`, then the conversion loop. -/
def mainEvents (a : Args) : List BatchEvent :=
  BatchEvent.mkdirParentsExistOk a.output_dir
    :: batchLoop a.output_dir a.dpi a.lang a.quiet a.pdfs

/-- Execution of the batch loop: each input is converted in order; an
uncaught exception from one conversion aborts the remaining inputs (Python
propagates it out of the `for` loop). -/
def runBatch {Img : Type} (env : Env Img) (outDir : String) (dpi : Nat)
    (lang : String) (quiet : Bool) : List String → Except String (List RunResult)
  | [] => Except.ok []
  | p :: rest =>
    match pdf_to_word_with_toc env p (outPathFor outDir p) dpi lang (!quiet) with
    | Except.error e => Except.error e
    | Except.ok r =>
      match runBatch env outDir dpi lang quiet rest with
      | Except.error e => Except.error e
      | Except.ok rs => Except.ok (r :: rs)

/-! ### Specification-side observations and closed forms -/

/-- Closed form of the body elements appended by the page loop when every OCR
call succeeds: section `i` is `[pageBreak]?, heading "Página i" (centered,
level 1), paragraph textᵢ`, with the page break exactly when `i > 1`. -/
def elemsFrom (i : Nat) : List String → List DocElem
  | [] => []
  | t :: ts =>
    (if i > 1 then [DocElem.pageBreak] else []) ++
    [DocElem.heading ("Página " ++ toString i) 1 (some 1), DocElem.paragraph t] ++
    elemsFrom (i + 1) ts

/-- The document the pipeline assembles for source file name `nm` and page
texts `texts` (reached whenever rasterization and all OCR calls succeed). -/
def assembledDoc (nm : String) (texts : List String) : Doc :=
  { title := "Conversión de " ++ nm
    author := "pdf_to_word_with_toc"
    body := [DocElem.heading "Tabla de Contenidos" 1 none,
             DocElem.tocField "TOC \\h \\z \\u"] ++ elemsFrom 1 texts }

/-- Page sections of a document body: the `(heading text, body text)` pairs of
headings immediately followed by a paragraph.  (The TOC heading is followed by
the TOC field, not a paragraph, so it yields no pair.) -/
def pageSecs : List DocElem → List (String × String)
  | DocElem.heading t _ _ :: DocElem.paragraph b :: rest => (t, b) :: pageSecs rest
  | _ :: rest => pageSecs rest
  | [] => []

/-- The expected page sections: texts paired with headings labelled by
consecutive page numbers starting at `i`. -/
def numberedFrom (i : Nat) : List String → List (String × String)
  | [] => []
  | t :: ts => ("Página " ++ toString i, t) :: numberedFrom (i + 1) ts

/-- Is this element a TOC placeholder field? -/
def isTocF : DocElem → Bool
  | DocElem.tocField _ => true
  | _ => false

/-- Is this element part of a page section (a page break, a body paragraph,
or a centered page heading)? -/
def isSectionElem : DocElem → Bool
  | DocElem.pageBreak => true
  | DocElem.paragraph _ => true
  | DocElem.heading _ _ (some _) => true
  | _ => false

/-- Scanning the body in order, does a TOC field occur strictly before the
first page-section element (vacuously, when there is no section element)? -/
def tocBeforeSections : List DocElem → Bool
  | [] => false
  | e :: rest =>
    if isTocF e then true
    else if isSectionElem e then false
    else tocBeforeSections rest

/-- Does the body contain a level-1 heading with text `label` immediately
followed by a TOC field? -/
def adjacentAfterHeading (label : String) : List DocElem → Bool
  | [] => false
  | [_] => false
  | a :: b :: rest =>
    (match a, b with
     | DocElem.heading t l _, DocElem.tocField _ => t == label && l == 1
     | _, _ => false) || adjacentAfterHeading label (b :: rest)

/-- Formalisation of the TOC-placement property for a given heading label:
the TOC field occurs exactly once, immediately after the top-level heading
`label`, and before any page-section element. -/
def tocPlacement (label : String) (body : List DocElem) : Bool :=
  (body.countP isTocF == 1) && adjacentAfterHeading label body &&
    tocBeforeSections body

/-- Is this element a page break? -/
def isPageBreak : DocElem → Bool
  | DocElem.pageBreak => true
  | _ => false

/-- For each heading in order, the number of consecutive page breaks
immediately preceding it (`acc` counts the breaks just scanned; any other
element resets the count). -/
def breaksRun (acc : Nat) : List DocElem → List Nat
  | [] => []
  | DocElem.pageBreak :: rest => breaksRun (acc + 1) rest
  | DocElem.heading _ _ _ :: rest => acc :: breaksRun 0 rest
  | _ :: rest => breaksRun 0 rest

/-- The breaks-immediately-before count for each heading of the body. -/
def breaksBeforeHeadings (body : List DocElem) : List Nat :=
  breaksRun 0 body

/-- Expected leading-break pattern for `n` page sections: the first section
has no leading page break, each of the remaining `n - 1` has exactly one. -/
def pageBreakSpec : Nat → List Nat
  | 0 => []
  | n + 1 => 0 :: List.replicate n 1

/-- The outline levels of all headings of a body, in order. -/
def headingLevels : List DocElem → List Nat
  | [] => []
  | DocElem.heading _ l _ :: rest => l :: headingLevels rest
  | _ :: rest => headingLevels rest

/-- The assembled document of a run that returned normally, if any. -/
def runDocOf {Img : Type} (env : Env Img) (pdf : String) (out : String)
    (dpi : Nat) (lang : String) (verbose : Bool) : Option Doc :=
  match pdf_to_word_with_toc env pdf out dpi lang verbose with
  | Except.ok r => r.doc
  | Except.error _ => none

/-! ### Concrete environments used by witnesses and counterexamples -/

/-- A 3-page environment: every path exists, rasterization yields pages
`[10, 20, 30]`, OCR reads `Alpha` / `` (empty) / `Gamma`, save succeeds. -/
def envOk : Env Nat :=
  { pathExists := fun _ => true
    convert_from_path := fun _ _ => Except.ok [10, 20, 30]
    image_to_string := fun p _ =>
      Except.ok (if p = 10 then "Alpha" else if p = 20 then "" else "Gamma")
    save := fun _ _ => Except.ok () }

/-- The OCR outcome of `envOk` as a pure text function. -/
def ocrOk (p : Nat) : String :=
  if p = 10 then "Alpha" else if p = 20 then "" else "Gamma"

/-- An environment in which no path exists. -/
def envMissing : Env Nat :=
  { pathExists := fun _ => false
    convert_from_path := fun _ _ => Except.ok []
    image_to_string := fun _ _ => Except.ok ""
    save := fun _ _ => Except.ok () }

/-- An environment in which rasterization raises `boom`. -/
def envRasterFail : Env Nat :=
  { pathExists := fun _ => true
    convert_from_path := fun _ _ => Except.error "boom"
    image_to_string := fun _ _ => Except.ok ""
    save := fun _ _ => Except.ok () }

/-- An environment in which OCR raises `tesseract error` on page `20`. -/
def envOcrFail : Env Nat :=
  { pathExists := fun _ => true
    convert_from_path := fun _ _ => Except.ok [10, 20, 30]
    image_to_string := fun p _ =>
      if p = 20 then Except.error "tesseract error" else Except.ok "ok"
    save := fun _ _ => Except.ok () }

/-- An environment in which every save raises `disk full`. -/
def envSaveFail : Env Nat :=
  { pathExists := fun _ => true
    convert_from_path := fun _ _ => Except.ok [10]
    image_to_string := fun _ _ => Except.ok "Alpha"
    save := fun _ _ => Except.error "disk full" }

/-! ### Helper lemmas -/

lemma emit_config_info (v : Bool) (m : String) :
    emit (configuredLevel v) LogLevel.info m = [⟨LogLevel.info, m⟩] := by
  cases v <;> rfl

lemma emit_config_error (v : Bool) (m : String) :
    emit (configuredLevel v) LogLevel.error m = [⟨LogLevel.error, m⟩] := by
  cases v <;> rfl

lemma processPages_ok {Img : Type} (env : Env Img) (lang : String) (th : LogLevel)
    (total : Nat) (f : Img → String)
    (hocr : ∀ p, env.image_to_string p lang = Except.ok (f p)) :
    ∀ (imgs : List Img) (i : Nat), ∃ lgs,
      processPages env lang th total imgs i =
        Except.ok (lgs, elemsFrom i (imgs.map f)) := by
  intro imgs
  induction imgs with
  | nil => intro i; exact ⟨[], rfl⟩
  | cons p rest ih =>
    intro i
    obtain ⟨lgs, hrec⟩ := ih (i + 1)
    refine ⟨emit th LogLevel.info
      ("🔍 Procesando página " ++ toString i ++ "/" ++ toString total ++ "...") ++ lgs, ?_⟩
    simp [processPages, hocr p, hrec, elemsFrom, List.append_assoc]

lemma processPages_error {Img : Type} (env : Env Img) (lang : String)
    (th : LogLevel) (total : Nat) (f : Img → String) (e : String) (bad : Img)
    (post : List Img) (hbad : env.image_to_string bad lang = Except.error e) :
    ∀ (pre : List Img) (i : Nat),
      (∀ p ∈ pre, env.image_to_string p lang = Except.ok (f p)) →
      processPages env lang th total (pre ++ bad :: post) i = Except.error e := by
  intro pre
  induction pre with
  | nil => intro i _; simp [processPages, hbad]
  | cons q qre ih =>
    intro i hpre
    have hq := hpre q (by simp)
    have hrec := ih (i + 1) (fun p hp => hpre p (by simp [hp]))
    simp [processPages, hq, hrec]

lemma run_ok_shape {Img : Type} (env : Env Img) (pdf : String) (out : String)
    (dpi : Nat) (lang : String) (v : Bool) (imgs : List Img) (f : Img → String)
    (hex : env.pathExists pdf = true)
    (hconv : env.convert_from_path pdf dpi = Except.ok imgs)
    (hocr : ∀ p, env.image_to_string p lang = Except.ok (f p)) :
    ∃ r, pdf_to_word_with_toc env pdf out dpi lang v = Except.ok r ∧
      r.doc = some (assembledDoc (pathName pdf) (imgs.map f)) := by
  obtain ⟨lgs, hpp⟩ :=
    processPages_ok env lang (configuredLevel v) imgs.length f hocr imgs 1
  simp only [pdf_to_word_with_toc, hex, hconv, hpp]
  rw [if_neg (by simp)]
  split
  · refine ⟨_, rfl, ?_⟩
    simp [assembledDoc, add_table_of_contents, Doc.add_heading, Doc.empty]
  · refine ⟨_, rfl, ?_⟩
    simp [assembledDoc, add_table_of_contents, Doc.add_heading, Doc.empty]

lemma pageSecs_elemsFrom (ts : List String) :
    ∀ i, pageSecs (elemsFrom i ts) = numberedFrom i ts := by
  induction ts with
  | nil => intro i; rfl
  | cons t ts ih =>
    intro i
    by_cases h : i > 1 <;>
      simp [elemsFrom, h, pageSecs, numberedFrom, ih]

lemma numberedFrom_length (ts : List String) :
    ∀ i, (numberedFrom i ts).length = ts.length := by
  induction ts with
  | nil => intro i; rfl
  | cons t ts ih => intro i; simp [numberedFrom, ih]

lemma countP_isTocF_elemsFrom (ts : List String) :
    ∀ i, (elemsFrom i ts).countP isTocF = 0 := by
  induction ts with
  | nil => intro i; rfl
  | cons t ts ih =>
    intro i
    by_cases h : i > 1 <;>
      simp [elemsFrom, h, List.countP_cons, List.countP_append, isTocF, ih]

lemma countP_isPageBreak_elemsFrom_ge2 (ts : List String) :
    ∀ i, 1 < i → (elemsFrom i ts).countP isPageBreak = ts.length := by
  induction ts with
  | nil => intro i _; rfl
  | cons t ts ih =>
    intro i hi
    have := ih (i + 1) (by omega)
    simp [elemsFrom, hi, List.countP_cons, List.countP_append, isPageBreak, this]

lemma countP_isPageBreak_elemsFrom_one (ts : List String) :
    (elemsFrom 1 ts).countP isPageBreak = ts.length - 1 := by
  cases ts with
  | nil => rfl
  | cons t ts =>
    have := countP_isPageBreak_elemsFrom_ge2 ts 2 (by omega)
    simp [elemsFrom, List.countP_cons, List.countP_append, isPageBreak, this]

lemma breaksRun_elemsFrom_ge2 (ts : List String) :
    ∀ i, 1 < i → breaksRun 0 (elemsFrom i ts) = List.replicate ts.length 1 := by
  induction ts with
  | nil => intro i _; rfl
  | cons t ts ih =>
    intro i hi
    have := ih (i + 1) (by omega)
    simp [elemsFrom, hi, breaksRun, this, List.replicate_succ]

lemma breaksRun_elemsFrom_one (ts : List String) :
    breaksRun 0 (elemsFrom 1 ts) = pageBreakSpec ts.length := by
  cases ts with
  | nil => rfl
  | cons t ts =>
    have := breaksRun_elemsFrom_ge2 ts 2 (by omega)
    simp [elemsFrom, breaksRun, pageBreakSpec, this]

lemma headingLevels_elemsFrom (ts : List String) :
    ∀ i, headingLevels (elemsFrom i ts) = List.replicate ts.length 1 := by
  induction ts with
  | nil => intro i; rfl
  | cons t ts ih =>
    intro i
    by_cases h : i > 1 <;>
      simp [elemsFrom, h, headingLevels, ih, List.replicate_succ]

lemma tocPlacement_assembled (nm : String) (ts : List String) :
    tocPlacement "Tabla de Contenidos" (assembledDoc nm ts).body = true := by
  have hcount : (assembledDoc nm ts).body.countP isTocF = 1 := by
    simp [assembledDoc, List.countP_cons, List.countP_append, isTocF,
      countP_isTocF_elemsFrom]
  have hadj : adjacentAfterHeading "Tabla de Contenidos" (assembledDoc nm ts).body = true := by
    simp [assembledDoc, adjacentAfterHeading]
  have hbefore : tocBeforeSections (assembledDoc nm ts).body = true := by
    simp [assembledDoc, tocBeforeSections, isTocF, isSectionElem]
  simp [tocPlacement, hcount, hadj, hbefore]

example : pathName "a/b/informe.pdf" = "informe.pdf" := by decide
example : pathStem "a/b/informe.pdf" = "informe" := by decide
example : pathStem ".bashrc" = ".bashrc" := by decide
example : pathStem "x." = "x." := by decide
example : (runDocOf envOk "informe.pdf" "out/informe.docx" 300 "spa" true).map
    Doc.title = some "Conversión de informe.pdf" := by decide
example : (runDocOf envOk "informe.pdf" "out/informe.docx" 300 "spa" true).map
    (fun d => pageSecs d.body) =
    some [("Página 1", "Alpha"), ("Página 2", ""), ("Página 3", "Gamma")] := by decide
example : (runDocOf envOk "informe.pdf" "out/informe.docx" 300 "spa" true).map
    (fun d => tocPlacement "Tabla de Contenidos" d.body) = some true := by decide
example : (runDocOf envOk "informe.pdf" "out/informe.docx" 300 "spa" true).map
    (fun d => breaksBeforeHeadings d.body) = some [0, 0, 1, 1] := by decide
example : pdf_to_word_with_toc envRasterFail "a.pdf" "o.docx" 300 "spa" true =
    Except.error "boom" := rfl

lemma batchLoop_eq_map (outDir : String) (dpi : Nat) (lang : String) (quiet : Bool) :
    ∀ pdfs : List String, batchLoop outDir dpi lang quiet pdfs =
      pdfs.map (fun p => BatchEvent.convert p (outPathFor outDir p) dpi lang (!quiet)) := by
  intro pdfs
  induction pdfs with
  | nil => rfl
  | cons p rest ih => simp [batchLoop, ih]

lemma runBatch_all_ok {Img : Type} (env : Env Img) (outDir : String) (dpi : Nat)
    (lang : String) (quiet : Bool) (g : String → RunResult)
    (hok : ∀ p, pdf_to_word_with_toc env p (outPathFor outDir p) dpi lang (!quiet) =
      Except.ok (g p)) :
    ∀ pdfs : List String,
      runBatch env outDir dpi lang quiet pdfs = Except.ok (pdfs.map g) := by
  intro pdfs
  induction pdfs with
  | nil => rfl
  | cons p rest ih => simp [runBatch, hok p, ih]

lemma processPages_config_eq {Img : Type} (env : Env Img) (lang : String) (total : Nat) :
    ∀ (imgs : List Img) (i : Nat),
      processPages env lang (configuredLevel true) total imgs i =
        processPages env lang (configuredLevel false) total imgs i := by
  intro imgs
  induction imgs with
  | nil => intro i; rfl
  | cons p rest ih =>
    intro i
    simp only [processPages, emit_config_info]
    cases h : env.image_to_string p lang with
    | error e => rfl
    | ok t => simp [ih (i + 1)]

/-! ### Claim theorems -/

/-- C1: for every valid PDF that rasterizes to `N` page images (and OCR
modelled by the pure text function `f`, which may return the empty string),
the assembled document contains exactly `N` page sections, in strictly
increasing 1-based page order: section `i` is the heading `Página i` followed
by a paragraph holding the OCR text of page `i` verbatim (`numberedFrom 1` pairs
the texts with labels `Página 1`, `Página 2`, …, in order); no section is
omitted. -/
theorem C1_page_sections {Img : Type} (env : Env Img) (pdf : String)
    (out : String) (dpi : Nat) (lang : String) (verbose : Bool)
    (imgs : List Img) (f : Img → String)
    (hex : env.pathExists pdf = true)
    (hconv : env.convert_from_path pdf dpi = Except.ok imgs)
    (hocr : ∀ p, env.image_to_string p lang = Except.ok (f p)) :
    ∃ r d, pdf_to_word_with_toc env pdf out dpi lang verbose = Except.ok r ∧
      r.doc = some d ∧
      pageSecs d.body = numberedFrom 1 (imgs.map f) ∧
      (pageSecs d.body).length = imgs.length := by
  obtain ⟨r, hr, hd⟩ := run_ok_shape env pdf out dpi lang verbose imgs f hex hconv hocr
  have hsec : pageSecs (assembledDoc (pathName pdf) (imgs.map f)).body =
      numberedFrom 1 (imgs.map f) := by
    simp [assembledDoc, pageSecs, pageSecs_elemsFrom]
  refine ⟨r, assembledDoc (pathName pdf) (imgs.map f), hr, hd, hsec, ?_⟩
  rw [hsec, numberedFrom_length, List.length_map]

/-- C1 witness: `envOk` rasterizes `informe.pdf` to three pages whose OCR
texts are `Alpha`, `` (empty) and `Gamma`; the document has exactly three
page sections, in order, the empty-text page included. -/
theorem C1_page_sections_witness :
    ∃ r d, pdf_to_word_with_toc envOk "informe.pdf" "out/informe.docx" 300 "spa" true =
        Except.ok r ∧
      r.doc = some d ∧
      pageSecs d.body = numberedFrom 1 ([10, 20, 30].map ocrOk) ∧
      (pageSecs d.body).length = ([10, 20, 30] : List Nat).length :=
  C1_page_sections envOk "informe.pdf" "out/informe.docx" 300 "spa" true
    [10, 20, 30] ocrOk rfl rfl (fun _ => rfl)

/-- C2 counterexample: the claim places the TOC field immediately after a
top-level heading labelled `"Table of Contents"`, but the code emits the
heading `"Tabla de Contenidos"`; on the concrete 3-page run the placement
predicate instantiated with `"Table of Contents"` evaluates to `false` (no
such heading exists in the document). -/
theorem C2_counterexample :
    (runDocOf envOk "informe.pdf" "out/informe.docx" 300 "spa" true).map
      (fun d => tocPlacement "Table of Contents" d.body) = some false := by
  decide

/-- C2 (amended): in every assembled document the TOC placeholder field
(carrying the field code `TOC \h \z \u`) appears exactly once, immediately
after the top-level heading — which the code labels `Tabla de Contenidos` —
and before any page-section element; the `tocField` element carries only the
field instruction, never computed TOC entries. -/
theorem C2_toc_placement {Img : Type} (env : Env Img) (pdf : String)
    (out : String) (dpi : Nat) (lang : String) (verbose : Bool)
    (imgs : List Img) (f : Img → String)
    (hex : env.pathExists pdf = true)
    (hconv : env.convert_from_path pdf dpi = Except.ok imgs)
    (hocr : ∀ p, env.image_to_string p lang = Except.ok (f p)) :
    ∃ r d, pdf_to_word_with_toc env pdf out dpi lang verbose = Except.ok r ∧
      r.doc = some d ∧
      tocPlacement "Tabla de Contenidos" d.body = true := by
  obtain ⟨r, hr, hd⟩ := run_ok_shape env pdf out dpi lang verbose imgs f hex hconv hocr
  exact ⟨r, _, hr, hd, tocPlacement_assembled _ _⟩

/-- C2 witness: on the concrete 3-page run the placement predicate
instantiated with the heading the code actually emits holds. -/
theorem C2_toc_placement_witness :
    ∃ r d, pdf_to_word_with_toc envOk "informe.pdf" "out/informe.docx" 300 "spa" true =
        Except.ok r ∧
      r.doc = some d ∧
      tocPlacement "Tabla de Contenidos" d.body = true :=
  C2_toc_placement envOk "informe.pdf" "out/informe.docx" 300 "spa" true
    [10, 20, 30] ocrOk rfl rfl (fun _ => rfl)

/-- C3: for every conversion producing `N` page sections, section 1 has no
leading page break and each of sections `2..N` is immediately preceded by
exactly one page break.  `breaksBeforeHeadings` lists, for each heading of
the body in order, how many consecutive page breaks immediately precede it:
the leading `0` is the (uncentered) `Tabla de Contenidos` heading, and the
page headings follow the pattern `0, 1, 1, …`; moreover the body contains
exactly `N - 1` page breaks in total, so there are no stray breaks
elsewhere. -/
theorem C3_page_breaks {Img : Type} (env : Env Img) (pdf : String)
    (out : String) (dpi : Nat) (lang : String) (verbose : Bool)
    (imgs : List Img) (f : Img → String)
    (hex : env.pathExists pdf = true)
    (hconv : env.convert_from_path pdf dpi = Except.ok imgs)
    (hocr : ∀ p, env.image_to_string p lang = Except.ok (f p)) :
    ∃ r d, pdf_to_word_with_toc env pdf out dpi lang verbose = Except.ok r ∧
      r.doc = some d ∧
      breaksBeforeHeadings d.body = 0 :: pageBreakSpec imgs.length ∧
      d.body.countP isPageBreak = imgs.length - 1 := by
  obtain ⟨r, hr, hd⟩ := run_ok_shape env pdf out dpi lang verbose imgs f hex hconv hocr
  refine ⟨r, assembledDoc (pathName pdf) (imgs.map f), hr, hd, ?_, ?_⟩
  · have := breaksRun_elemsFrom_one (imgs.map f)
    simp [assembledDoc, breaksBeforeHeadings, breaksRun, this]
  · have := countP_isPageBreak_elemsFrom_one (imgs.map f)
    simp [assembledDoc, List.countP_cons, List.countP_append, isPageBreak, this]

/-- C3 witness: on the concrete 3-page run the leading-break pattern is
`[0, 0, 1, 1]` (TOC heading, then pages 1, 2, 3) and the body holds exactly
two page breaks. -/
theorem C3_page_breaks_witness :
    ∃ r d, pdf_to_word_with_toc envOk "informe.pdf" "out/informe.docx" 300 "spa" true =
        Except.ok r ∧
      r.doc = some d ∧
      breaksBeforeHeadings d.body = 0 :: pageBreakSpec ([10, 20, 30] : List Nat).length ∧
      d.body.countP isPageBreak = ([10, 20, 30] : List Nat).length - 1 :=
  C3_page_breaks envOk "informe.pdf" "out/informe.docx" 300 "spa" true
    [10, 20, 30] ocrOk rfl rfl (fun _ => rfl)

/-- C7 counterexample: the claim says the title equals
`"Conversion of <name>"`, but for the source `informe.pdf` the assembled
title is `"Conversión de informe.pdf"`, which is a different string. -/
theorem C7_counterexample :
    (runDocOf envOk "informe.pdf" "out/informe.docx" 300 "spa" true).map Doc.title =
      some "Conversión de informe.pdf" ∧
    ("Conversión de informe.pdf" : String) ≠ "Conversion of informe.pdf" := by
  constructor
  · decide
  · decide

/-- C7 (amended): for every conversion the title of the assembled document
equals `"Conversión de "` followed by the name of the source file (for
`<stem>.pdf`, the
title is `Conversión de <stem>.pdf`), and the author field is the fixed tool
identifier `pdf_to_word_with_toc`, independent of the input. -/
theorem C7_title_author {Img : Type} (env : Env Img) (pdf : String)
    (out : String) (dpi : Nat) (lang : String) (verbose : Bool)
    (imgs : List Img) (f : Img → String)
    (hex : env.pathExists pdf = true)
    (hconv : env.convert_from_path pdf dpi = Except.ok imgs)
    (hocr : ∀ p, env.image_to_string p lang = Except.ok (f p)) :
    ∃ r d, pdf_to_word_with_toc env pdf out dpi lang verbose = Except.ok r ∧
      r.doc = some d ∧
      d.title = "Conversión de " ++ pathName pdf ∧
      d.author = "pdf_to_word_with_toc" := by
  obtain ⟨r, hr, hd⟩ := run_ok_shape env pdf out dpi lang verbose imgs f hex hconv hocr
  exact ⟨r, _, hr, hd, rfl, rfl⟩

/-- C7 witness: at the concrete input `informe.pdf` the title is
`Conversión de informe.pdf` and the author is `pdf_to_word_with_toc`. -/
theorem C7_title_author_witness :
    ∃ r d, pdf_to_word_with_toc envOk "informe.pdf" "out/informe.docx" 300 "spa" true =
        Except.ok r ∧
      r.doc = some d ∧
      d.title = "Conversión de " ++ pathName "informe.pdf" ∧
      d.author = "pdf_to_word_with_toc" :=
  C7_title_author envOk "informe.pdf" "out/informe.docx" 300 "spa" true
    [10, 20, 30] ocrOk rfl rfl (fun _ => rfl)

/-- C8: every heading of the assembled document — the `Tabla de Contenidos`
heading and all `N` per-page headings — is emitted at outline level 1
(`headingLevels` lists all heading levels in order, and they are `N + 1`
copies of `1`).  This is the level the field code `TOC \h \z \u` scans, so a
word processor resolving the field will list the TOC section itself as an
entry; the quirk is preserved, not corrected. -/
theorem C8_heading_levels {Img : Type} (env : Env Img) (pdf : String)
    (out : String) (dpi : Nat) (lang : String) (verbose : Bool)
    (imgs : List Img) (f : Img → String)
    (hex : env.pathExists pdf = true)
    (hconv : env.convert_from_path pdf dpi = Except.ok imgs)
    (hocr : ∀ p, env.image_to_string p lang = Except.ok (f p)) :
    ∃ r d, pdf_to_word_with_toc env pdf out dpi lang verbose = Except.ok r ∧
      r.doc = some d ∧
      headingLevels d.body = List.replicate (imgs.length + 1) 1 := by
  obtain ⟨r, hr, hd⟩ := run_ok_shape env pdf out dpi lang verbose imgs f hex hconv hocr
  refine ⟨r, assembledDoc (pathName pdf) (imgs.map f), hr, hd, ?_⟩
  have := headingLevels_elemsFrom (imgs.map f) 1
  simp [assembledDoc, headingLevels, this, List.replicate_succ]

/-- C8 witness: on the concrete 3-page run all four headings (TOC plus three
pages) are at level 1. -/
theorem C8_heading_levels_witness :
    ∃ r d, pdf_to_word_with_toc envOk "informe.pdf" "out/informe.docx" 300 "spa" true =
        Except.ok r ∧
      r.doc = some d ∧
      headingLevels d.body = List.replicate (([10, 20, 30] : List Nat).length + 1) 1 :=
  C8_heading_levels envOk "informe.pdf" "out/informe.docx" 300 "spa" true
    [10, 20, 30] ocrOk rfl rfl (fun _ => rfl)

/-- C4: if the input PDF path does not exist, `pdf_to_word_with_toc` returns
normally (no exception) having emitted exactly one error log line, with no
document assembled and no output file written; the result is the same for
every environment agreeing on the existence check, so rasterization, OCR,
assembly and save are never consulted.  Consequently the batch driver
continues: a batch starting with the missing input processes the remaining
inputs exactly as it would have on its own. -/
theorem C4_missing_input {Img : Type} (env : Env Img) (pdf : String)
    (out : String) (dpi : Nat) (lang : String) (verbose : Bool)
    (outDir : String) (quiet : Bool) (rest : List String)
    (h : env.pathExists pdf = false) :
    pdf_to_word_with_toc env pdf out dpi lang verbose =
      Except.ok ⟨[⟨LogLevel.error, "El PDF no existe: " ++ pdf⟩], none, false⟩ ∧
    runBatch env outDir dpi lang quiet (pdf :: rest) =
      (runBatch env outDir dpi lang quiet rest).map
        (List.cons ⟨[⟨LogLevel.error, "El PDF no existe: " ++ pdf⟩], none, false⟩) := by
  have key : ∀ (o : String) (v : Bool), pdf_to_word_with_toc env pdf o dpi lang v =
      Except.ok ⟨[⟨LogLevel.error, "El PDF no existe: " ++ pdf⟩], none, false⟩ := by
    intro o v
    simp [pdf_to_word_with_toc, h, emit_config_error]
  refine ⟨key out verbose, ?_⟩
  cases hb : runBatch env outDir dpi lang quiet rest with
  | ok rs => simp [runBatch, key, hb, Except.map]
  | error e => simp [runBatch, key, hb, Except.map]

/-- C4 witness: with `envMissing` (no path exists), converting `faltante.pdf`
logs the error and produces nothing, and the two-element batch starting with
it still processes the second input. -/
theorem C4_missing_input_witness :
    pdf_to_word_with_toc envMissing "faltante.pdf" "out/faltante.docx" 300 "spa" true =
      Except.ok ⟨[⟨LogLevel.error, "El PDF no existe: " ++ "faltante.pdf"⟩], none, false⟩ ∧
    runBatch envMissing "out" 300 "spa" false ("faltante.pdf" :: ["b.pdf"]) =
      (runBatch envMissing "out" 300 "spa" false ["b.pdf"]).map
        (List.cons ⟨[⟨LogLevel.error, "El PDF no existe: " ++ "faltante.pdf"⟩], none, false⟩) :=
  C4_missing_input envMissing "faltante.pdf" "out/faltante.docx" 300 "spa" true
    "out" false ["b.pdf"] rfl

/-- C5: a failure raised by rasterization, or by the per-page OCR call on any
page (all earlier pages having succeeded), is not caught inside
`pdf_to_word_with_toc`: the exception propagates out of the function, and a
batch whose current input fails this way aborts with that exception, never
reaching the remaining inputs — unlike the input-resolution (C4) and save
(C6) failures, which are contained per document. -/
theorem C5_uncaught_propagation {Img : Type} (env : Env Img) (pdf : String)
    (out : String) (outDir : String) (dpi : Nat) (lang : String)
    (verbose : Bool) (quiet : Bool) (e : String) (rest : List String)
    (hex : env.pathExists pdf = true)
    (hfail : env.convert_from_path pdf dpi = Except.error e ∨
      ∃ (imgs : List Img) (pre : List Img) (bad : Img) (post : List Img)
        (f : Img → String), env.convert_from_path pdf dpi = Except.ok imgs ∧
        imgs = pre ++ bad :: post ∧
        (∀ p ∈ pre, env.image_to_string p lang = Except.ok (f p)) ∧
        env.image_to_string bad lang = Except.error e) :
    pdf_to_word_with_toc env pdf out dpi lang verbose = Except.error e ∧
    runBatch env outDir dpi lang quiet (pdf :: rest) = Except.error e := by
  have key : ∀ (o : String) (v : Bool),
      pdf_to_word_with_toc env pdf o dpi lang v = Except.error e := by
    intro o v
    rcases hfail with hconv | ⟨imgs, pre, bad, post, f, hconv, himgs, hpre, hbad⟩
    · simp [pdf_to_word_with_toc, hex, hconv]
    · subst himgs
      have hpp := processPages_error env lang (configuredLevel v)
        (pre ++ bad :: post).length f e bad post hbad pre 1 hpre
      simp only [List.length_append, List.length_cons] at hpp
      simp [pdf_to_word_with_toc, hex, hconv, hpp]
  exact ⟨key out verbose, by simp [runBatch, key]⟩

/-- C5 witness: with `envRasterFail` (rasterization raises `boom`), the
conversion propagates the exception and the batch halts before its second
input. -/
theorem C5_uncaught_propagation_witness :
    pdf_to_word_with_toc envRasterFail "a.pdf" "o.docx" 300 "spa" true =
      Except.error "boom" ∧
    runBatch envRasterFail "out" 300 "spa" false ("a.pdf" :: ["b.pdf"]) =
      Except.error "boom" :=
  C5_uncaught_propagation envRasterFail "a.pdf" "o.docx" "out" 300 "spa" true
    false "boom" ["b.pdf"] rfl (Or.inl rfl)

/-- C6: when saving fails, the failure is caught inside
`pdf_to_word_with_toc`: the function returns normally (the Python function
returns `None` in every non-raising run, so the caller gets no
success/failure signal), no output file is recorded as written, and the last
emitted log line is an error naming both the output path and the underlying
cause. -/
theorem C6_save_failure {Img : Type} (env : Env Img) (pdf : String)
    (out : String) (dpi : Nat) (lang : String) (verbose : Bool)
    (imgs : List Img) (f : Img → String) (err : String)
    (hex : env.pathExists pdf = true)
    (hconv : env.convert_from_path pdf dpi = Except.ok imgs)
    (hocr : ∀ p, env.image_to_string p lang = Except.ok (f p))
    (hsave : ∀ d, env.save d out = Except.error err) :
    ∃ r, pdf_to_word_with_toc env pdf out dpi lang verbose = Except.ok r ∧
      r.saved = false ∧
      r.logs.getLast? =
        some ⟨LogLevel.error, "❌ Error al guardar " ++ out ++ ": " ++ err⟩ := by
  obtain ⟨lgs, hpp⟩ :=
    processPages_ok env lang (configuredLevel verbose) imgs.length f hocr imgs 1
  simp only [pdf_to_word_with_toc, hex, hconv, hpp, hsave]
  rw [if_neg (by simp)]
  refine ⟨_, rfl, rfl, ?_⟩
  rw [emit_config_error]
  exact List.getLast?_concat _

/-- C6 witness: with `envSaveFail` (every save raises `disk full`), the run
returns normally, marks nothing saved, and ends its log with the error line
naming the path and the cause. -/
theorem C6_save_failure_witness :
    ∃ r, pdf_to_word_with_toc envSaveFail "a.pdf" "out/a.docx" 300 "spa" true =
        Except.ok r ∧
      r.saved = false ∧
      r.logs.getLast? =
        some ⟨LogLevel.error, "❌ Error al guardar " ++ "out/a.docx" ++ ": " ++ "disk full"⟩ :=
  C6_save_failure envSaveFail "a.pdf" "out/a.docx" 300 "spa" true [10]
    (fun _ => "Alpha") "disk full" rfl rfl (fun _ => rfl) (fun _ => rfl)

/-- C9: the batch driver first performs
`mkdir(parents=True, exist_ok=True)` on the output directory (create it and
any missing parents; no-op when present), then, for each input in the given
order, derives the output path `<output-dir>/<input-stem>.docx` and invokes
the full conversion pipeline exactly once per input; when each per-input
conversion returns normally with result `g p`, the batch run returns the
results of all inputs in order, each produced independently. -/
theorem C9_batch_driver {Img : Type} (env : Env Img) (a : Args)
    (g : String → RunResult)
    (hok : ∀ p, pdf_to_word_with_toc env p (outPathFor a.output_dir p)
      a.dpi a.lang (!a.quiet) = Except.ok (g p)) :
    mainEvents a = BatchEvent.mkdirParentsExistOk a.output_dir ::
      a.pdfs.map (fun p => BatchEvent.convert p
        (a.output_dir ++ "/" ++ (pathStem p ++ ".docx")) a.dpi a.lang (!a.quiet)) ∧
    runBatch env a.output_dir a.dpi a.lang a.quiet a.pdfs =
      Except.ok (a.pdfs.map g) := by
  constructor
  · simp [mainEvents, batchLoop_eq_map, outPathFor]
  · exact runBatch_all_ok env a.output_dir a.dpi a.lang a.quiet g hok a.pdfs

/-- C9 witness: a two-input batch into directory `salida` first creates the
directory, then converts `a.pdf` and `b.pdf`, in order, into
`salida/a.docx` and `salida/b.docx` (with `envMissing` each conversion
returns normally with its not-found error result). -/
theorem C9_batch_driver_witness :
    mainEvents ⟨["a.pdf", "b.pdf"], "salida", 300, "spa", false⟩ =
      BatchEvent.mkdirParentsExistOk "salida" ::
        (["a.pdf", "b.pdf"] : List String).map (fun p => BatchEvent.convert p
          ("salida" ++ "/" ++ (pathStem p ++ ".docx")) 300 "spa" (!false)) ∧
    runBatch envMissing "salida" 300 "spa" false ["a.pdf", "b.pdf"] =
      Except.ok ((["a.pdf", "b.pdf"] : List String).map
        (fun p => ⟨[⟨LogLevel.error, "El PDF no existe: " ++ p⟩], none, false⟩)) :=
  C9_batch_driver envMissing ⟨["a.pdf", "b.pdf"], "salida", 300, "spa", false⟩
    (fun p => ⟨[⟨LogLevel.error, "El PDF no existe: " ++ p⟩], none, false⟩)
    (fun _ => rfl)

/-- C10: the `verbose` flag does not influence the outcome at all: for any
fixed environment, input path, output path, dpi and language, the runs with
`verbose = true` and `verbose = false` are equal — same assembled document,
same save outcome, and even the same emitted log lines, since `verbose` only
selects the logging threshold (`DEBUG` vs `INFO`) and every message the
function logs is at `INFO` level or above. -/
theorem C10_verbose_no_influence {Img : Type} (env : Env Img) (pdf : String)
    (out : String) (dpi : Nat) (lang : String) :
    pdf_to_word_with_toc env pdf out dpi lang true =
      pdf_to_word_with_toc env pdf out dpi lang false := by
  simp only [pdf_to_word_with_toc]
  cases hex : env.pathExists pdf with
  | false => simp [emit_config_error]
  | true =>
    rw [if_neg (by simp), if_neg (by simp)]
    cases hconv : env.convert_from_path pdf dpi with
    | error e => rfl
    | ok pages =>
      simp only [processPages_config_eq env lang pages.length pages 1]
      split
      · rfl
      · split <;> simp [emit_config_info, emit_config_error]

end Transcript
